import Mathlib

/-!
# Verification of the deferred-shading / GPU-ray-tracing pipeline

Shallow embedding of the pipeline code of the `acg-project-ssr` renderer:

* the geometry/ray-seeding fragment shader and the host-side geometry pass
  (`engine_pipeline_geomBuffer.cpp`),
* the ray-tracing compute shader and the `migrate` scene-flattening operation
  (`engine_pipeline_raytracing.cpp`),
* the full-screen lighting resolve shader
  (`engine_pipeline_fullscreenLighting.cpp`),
* the shadow-mapping pass (`engine_pipeline_shadowmapping.cpp`).

GLSL/GLM floats are modelled as rationals (`ℚ`); GPU images and buffers are
modelled as lists or as functions from indices; the per-frame GPU execution
is modelled as explicit state passing, the rasterized fragments being
processed in order (an overdrawn pixel contributes several fragments, each
of which runs the fragment shader).  Numeric kernels that are irreducibly
floating-point/transcendental (the Cook-Torrance lighting terms, texture
sampling, the scene intersection test of the compute shader) are abstracted
as parameters of the embedding; every control-flow and data-flow decision of
the source is reproduced literally.
-/

namespace SSR

/-- 2-component vector of rationals (GLSL `vec2`). -/
structure V2 where
  x : ℚ
  y : ℚ
deriving DecidableEq, Repr

/-- 3-component vector of rationals (GLSL `vec3`). -/
structure V3 where
  x : ℚ
  y : ℚ
  z : ℚ
deriving DecidableEq, Repr

/-- 4-component vector of rationals (GLSL `vec4`). -/
structure V4 where
  x : ℚ
  y : ℚ
  z : ℚ
  w : ℚ
deriving DecidableEq, Repr

instance : Zero V2 := ⟨⟨0, 0⟩⟩
instance : Zero V3 := ⟨⟨0, 0, 0⟩⟩
instance : Zero V4 := ⟨⟨0, 0, 0, 0⟩⟩
instance : Inhabited V2 := ⟨0⟩
instance : Inhabited V3 := ⟨0⟩
instance : Inhabited V4 := ⟨0⟩

instance : Add V3 := ⟨fun a b => ⟨a.x + b.x, a.y + b.y, a.z + b.z⟩⟩
instance : Sub V3 := ⟨fun a b => ⟨a.x - b.x, a.y - b.y, a.z - b.z⟩⟩
instance : SMul ℚ V3 := ⟨fun q a => ⟨q * a.x, q * a.y, q * a.z⟩⟩

/-- GLSL `dot` on `vec3`. -/
def dot3 (a b : V3) : ℚ :=
  a.x * b.x + a.y * b.y + a.z * b.z

/-- GLSL `reflect(I, N) = I - 2 * dot(N, I) * N`. -/
def reflect (i n : V3) : V3 :=
  i - (2 * dot3 n i) • n

/-- `vec4(v, 1.0)`: homogeneous point. -/
def toHom (v : V3) : V4 :=
  ⟨v.x, v.y, v.z, 1⟩

/-- `.xyz` swizzle of a `vec4`. -/
def V4.xyz (v : V4) : V3 :=
  ⟨v.x, v.y, v.z⟩

/-! ## Ray records

`RayStruct` as declared identically in the geometry fragment shader, the
ray-tracing compute shader and the lighting fragment shader (and as
`Eng::PipelineRayTracing::RayStruct` on the host). -/

/-- One ray record of the GPU-resident Ray Record Buffer. -/
structure RayStruct where
  position : V3
  normal : V3
  albedo : V3
  metalness : ℚ
  roughness : ℚ
  rayDir : V3
  next : ℤ
deriving DecidableEq, Repr

instance : Inhabited RayStruct :=
  ⟨{ position := 0, normal := 0, albedo := 0, metalness := 0, roughness := 0,
     rayDir := 0, next := -1 }⟩

/-! ## Geometry / ray-seeding pass

Embedding of the fragment shader `pipeline_fs` of
`engine_pipeline_geomBuffer.cpp` (its `main`, lines 132-158) and of the pass
over all covered pixels.  Texture sampling is abstracted away by taking the
sampled surface attributes of each fragment as the input; the tangent-space
transform of the normal is likewise folded into the sampled normal (the claim
statements only depend on the seeding control flow and on which outputs are
written). -/

/-- Sampled per-fragment surface attributes (the texel values combined with
the interpolated varyings, as read at the top of the shader `main`). -/
structure FragIn where
  fragPosition : V3
  normal : V3
  albedo : V3
  metalness : ℚ
  roughness : ℚ
deriving DecidableEq, Repr

instance : Inhabited FragIn := ⟨{ fragPosition := 0, normal := 0, albedo := 0,
                                  metalness := 0, roughness := 0 }⟩

/-- The four fragment-shader outputs (`positionOut`, `normalOut`,
`albedoOut`, `rayDataId`). -/
structure FragOut where
  positionOut : V4
  normalOut : V4
  albedoOut : V4
  rayDataId : ℤ
deriving DecidableEq, Repr

instance : Inhabited FragOut := ⟨{ positionOut := 0, normalOut := 0,
                                   albedoOut := 0, rayDataId := -1 }⟩

/-- Shared state mutated by the seeding shader: the atomic seed counter and
the Ray Record Buffer contents (records in allocation order; the record at
index `i` was allocated when the counter was `i`). -/
structure GeomState where
  counter : ℕ
  rayData : List RayStruct
deriving DecidableEq, Repr

/-- Fragment shader `main` of the geometry pass, one fragment.  Writes the
three color outputs and the default `rayDataId = -1`, then returns without
seeding when `roughness > roughnessThreshold`; otherwise increments the
atomic counter, stores the fresh index in `rayDataId` and appends the new ray
record (with `next = -1` and the reflected view direction). -/
def shadeFragment (camPos : V3) (roughnessThreshold : ℚ) (f : FragIn)
    (st : GeomState) : FragOut × GeomState :=
  let positionOut : V4 := toHom f.fragPosition
  let normalOut : V4 := ⟨f.normal.x, f.normal.y, f.normal.z, f.metalness⟩
  let albedoOut : V4 := ⟨f.albedo.x, f.albedo.y, f.albedo.z, f.roughness⟩
  let rayDataId : ℤ := -1
  if f.roughness > roughnessThreshold then
    (⟨positionOut, normalOut, albedoOut, rayDataId⟩, st)
  else
    let index := st.counter
    let rec0 : RayStruct :=
      { position := f.fragPosition
        normal := normalOut.xyz
        albedo := albedoOut.xyz
        metalness := normalOut.w
        roughness := albedoOut.w
        rayDir := reflect (f.fragPosition - camPos) f.normal
        next := -1 }
    (⟨positionOut, normalOut, albedoOut, (index : ℤ)⟩,
     { counter := st.counter + 1, rayData := st.rayData ++ [rec0] })

/-- Rasterization of one frame: every rasterized fragment, in raster order,
runs the fragment shader against the shared state.  The shader declares no
early fragment tests, so its atomic-counter and SSBO side effects happen
for every shaded fragment, including fragments of overdrawn pixels that the
depth test later discards. -/
def geomPassAux (camPos : V3) (thr : ℚ) :
    List FragIn → GeomState → List FragOut × GeomState
  | [], st => ([], st)
  | f :: rest, st =>
    let (o, st1) := shadeFragment camPos thr f st
    let (os, st2) := geomPassAux camPos thr rest st1
    (o :: os, st2)

/-- `Eng::PipelineGeometry::render`: the seed counter is reset to zero
(`rayBufferCounter.reset()`) and the ray-index image is cleared to `-1`
before the scene is rasterized; the per-fragment outputs and the final
shared state are produced by the fragment shader runs. -/
def geomRender (camPos : V3) (thr : ℚ) (frags : List FragIn) :
    List FragOut × GeomState :=
  geomPassAux camPos thr frags ⟨0, []⟩

/-- Number of fragments of a list that satisfy the seeding condition
`roughness <= roughnessThreshold`. -/
def seededCount (thr : ℚ) (l : List FragIn) : ℕ :=
  l.countP (fun f => f.roughness ≤ thr)

/-! ## Indirect dispatch sizing -/

/-- Modelled from the spec: the Indirect Dispatch Command buffer content.
The producer behind `PipelineGeometry::getWorkgroupCount` (bound at binding
5 and consumed via `Program::computeIndirect` by the ray-tracing pass) is
not among the provided sources — only its caller in
`engine_pipeline_raytracing.cpp` is.  Per the spec the compute workgroup
size is fixed at 64 threads and the workgroup count is `ceil(seeds / 64)`. -/
def workgroupCount (seeds : ℕ) : ℕ :=
  (seeds + 63) / 64

/-- `Eng::PipelineRayTracing::render` sizes its indirect dispatch from the
geometry pass's workgroup-count buffer
(`program.computeIndirect(geometryPipe.getWorkgroupCount().getOglHandle())`). -/
def rtDispatchGroups (st : GeomState) : ℕ :=
  workgroupCount st.counter

/-! ## Concrete fragments used as evaluation witnesses -/

/-- A rough fragment (roughness 1/2): rejected at the default threshold. -/
def fragRough : FragIn :=
  { fragPosition := ⟨1, 2, 3⟩, normal := ⟨0, 0, 1⟩, albedo := ⟨1, 0, 0⟩,
    metalness := 0, roughness := 1/2 }

/-- A smooth fragment (roughness 1/8): seeded at the default threshold. -/
def fragSmooth : FragIn :=
  { fragPosition := ⟨4, 5, 6⟩, normal := ⟨0, 1, 0⟩, albedo := ⟨0, 1, 0⟩,
    metalness := 1, roughness := 1/8 }

/-- A perfectly smooth fragment (roughness exactly 0). -/
def fragZero : FragIn :=
  { fragPosition := ⟨0, 0, 1⟩, normal := ⟨0, 0, 1⟩, albedo := ⟨1, 1, 1⟩,
    metalness := 0, roughness := 0 }

/-! ## The rasterized fragment stream and its pixel footprint

The geometry pass shades one fragment per rasterized fragment, not one per
pixel: the fragment shader has SSBO and atomic-counter side effects and
declares no early fragment tests, so fragments of overdrawn pixels execute
the seeding code even when the depth test later discards their outputs. -/

/-- One rasterized fragment: the pixel it covers (`gl_FragCoord`) and the
sampled surface attributes the shader reads. -/
structure RasterFragment where
  pixel : ℕ × ℕ
  frag : FragIn
deriving DecidableEq, Repr

/-- The G-buffer footprint of a fragment stream: the number of distinct
pixels it covers. -/
def coveredPixelCount (stream : List RasterFragment) : ℕ :=
  ((stream.map (fun rf => rf.pixel)).dedup).length

/-- The geometry pass on a rasterized fragment stream: every fragment runs
the seeding shader, in raster order. -/
def geomRenderRaster (camPos : V3) (thr : ℚ) (stream : List RasterFragment) :
    List FragOut × GeomState :=
  geomRender camPos thr (stream.map (fun rf => rf.frag))

/-- Two smooth fragments covering the same pixel: one pixel of G-buffer
footprint, two fragment-shader runs (overdraw). -/
def streamOverdrawW : List RasterFragment :=
  [⟨(0, 0), fragZero⟩, ⟨(0, 0), fragZero⟩]

/-- Two smooth fragments on two distinct pixels (no overdraw). -/
def streamW : List RasterFragment :=
  [⟨(0, 0), fragZero⟩, ⟨(1, 0), fragZero⟩]

/-! ## Ray-tracing compute pass

Embedding of `rayCasting` of the compute shader `pipeline_cs` in
`engine_pipeline_raytracing.cpp` (lines 334-366).  The Ray Record Buffer is
a preallocated GPU buffer, modelled as a total function from slot index to
record, together with the shared atomic allocation counter.  The scene
intersection test `intersect` (a pure function of the ray and the flattened
scene buffers, involving square roots, normalization and bindless texture
sampling) is abstracted as a function parameter. -/

/-- `struct Ray` of the compute shader. -/
structure Ray where
  origin : V3
  dir : V3
deriving DecidableEq, Repr

/-- The fields of `struct HitInfo` consumed by `rayCasting` after
`intersect` has filled them. -/
structure HitInfo where
  collisionPoint : V3
  normal : V3
  faceNormal : V3
  albedo : V3
  metalness : ℚ
  roughness : ℚ
deriving DecidableEq, Repr

/-- `K_EPSILON` (`1e-4`) of the compute shader. -/
def K_EPSILON : ℚ :=
  1 / 10000

/-- Shared mutable state of the compute pass: the atomic counter and the Ray
Record Buffer. -/
structure RTState where
  counter : ℕ
  buf : ℕ → RayStruct

/-- The body of the bounce loop on an intersection: draw a fresh slot from
the atomic counter, link the previous record's `next` to it, fill the fresh
record (its `next` set to `-1`, its direction the reflection of the incoming
ray), and move the ray origin to the hit point offset by `2 * K_EPSILON`
along the face normal with the reflected direction.  Returns the next ray,
the new chain-tail index, and the updated shared state. -/
def rayCastStep (ray : Ray) (index : ℕ) (hit : HitInfo) (st : RTState) :
    Ray × ℕ × RTState :=
  let newIndex := st.counter
  let buf1 := Function.update st.buf index
    { st.buf index with next := (newIndex : ℤ) }
  let newRec : RayStruct :=
    { position := hit.collisionPoint
      normal := hit.normal
      albedo := hit.albedo
      metalness := hit.metalness
      roughness := hit.roughness
      rayDir := reflect ray.dir hit.normal
      next := -1 }
  let buf2 := Function.update buf1 newIndex newRec
  (⟨newRec.position + (2 * K_EPSILON) • hit.faceNormal,
    reflect ray.dir newRec.normal⟩,
   newIndex,
   ⟨newIndex + 1, buf2⟩)

/-- `rayCasting` of the compute shader, one invocation: a loop of
`nrOfBounces` iterations, each appending one bounce record when the current
ray intersects the scene (iterations without an intersection change
nothing). -/
def rayCasting (intersect : Ray → Option HitInfo) :
    ℕ → Ray → ℕ → RTState → RTState
  | 0, _, _, st => st
  | c + 1, ray, index, st =>
    match intersect ray with
    | none => rayCasting intersect c ray index st
    | some hit =>
      let (ray1, index1, st1) := rayCastStep ray index hit st
      rayCasting intersect c ray1 index1 st1

/-- Walk of a ray chain by repeatedly following `next`, with explicit fuel:
the list of visited slot indices when the walk reaches a `-1` link within
the fuel bound, `none` otherwise. -/
def chainFrom (st : RTState) : ℕ → ℕ → Option (List ℕ)
  | 0, _ => none
  | fuel + 1, i =>
    let n := (st.buf i).next
    if n = -1 then some [i]
    else if 0 ≤ n then (chainFrom st fuel n.toNat).map (i :: ·)
    else none

/-- Concrete compute-pass state used as an evaluation witness: one seeded
record, all slots defaulted (`next = -1`). -/
def rtStW : RTState :=
  ⟨1, fun _ => default⟩

/-- Concrete seed ray used as an evaluation witness. -/
def rtRayW : Ray :=
  ⟨0, ⟨0, 0, 1⟩⟩

/-- Concrete scene-intersection function (an empty scene: every ray misses)
used as an evaluation witness. -/
def rtIntersectW : Ray → Option HitInfo :=
  fun _ => none

/-! ## Full-screen lighting resolve pass

Embedding of the fragment shader `pipeline_fs` of
`engine_pipeline_fullscreenLighting.cpp` (`computeRaycastedLighting`, lines
213-250, and `main`, lines 252-280).  The irreducibly floating-point lighting
kernels are abstracted as parameters: `finalLighting` stands for the whole
`computeFinalLighting` function (ambient + per-light Cook-Torrance terms
with shadow lookups), and `bounceLightTerm viewPos ray i` stands for the
value `lighting * (1.0 - shadow)` computed for light `i` in the body of the
chain-walk loop.  Colors are `V3`; GLSL `v / n` on a vector is
componentwise division, modelled as `(1 / n) • v`.  The control flow and
every accumulation of the source — including the inner `vec3 color`
declaration of the `while` body, which shadows the outer accumulator — are
reproduced literally. -/

/-- The abstracted lighting environment of the resolve shader: the number of
lights and the two numeric kernels. -/
structure LightingCtx where
  nrOfLights : ℕ
  bounceLightTerm : V3 → RayStruct → ℕ → V3
  finalLighting : V3 → V4 → V3 → V3 → ℚ → ℚ → V3

/-- The `for` loop over lights inside the chain walk of
`computeRaycastedLighting`: for each light the running bounce counter is
incremented first, then the (abstracted) shadowed lighting term is divided
by the updated counter and accumulated.  Arguments: remaining lights, light
index, accumulator, bounce counter. -/
def crlLightLoop (ctx : LightingCtx) (viewPos : V3) (ray : RayStruct) :
    ℕ → ℕ → V3 → ℕ → V3 × ℕ
  | 0, _, color, nB => (color, nB)
  | rem + 1, i, color, nB =>
    let nB1 := nB + 1
    crlLightLoop ctx viewPos ray rem (i + 1)
      (color + (1 / (nB1 : ℚ)) • ctx.bounceLightTerm viewPos ray i) nB1

/-- The `while (ray.next != -1)` loop of `computeRaycastedLighting`.  Each
iteration declares a fresh local `vec3 color` initialised to the ambient
term `ray.albedo * 0.1` — this local shadows the outer accumulator, exactly
as in the source — accumulates the per-light bounce lighting into it, and
then drops it; only the bounce counter, the view position and the walked
record survive the iteration.  The GLSL loop is unbounded; the embedding
carries fuel, which the caller sizes above any acyclic chain length. -/
def crlWhile (ctx : LightingCtx) (rayData : List RayStruct) :
    ℕ → V3 → RayStruct → ℕ → V3 × RayStruct × ℕ
  | 0, viewPos, ray, nB => (viewPos, ray, nB)
  | fuel + 1, viewPos, ray, nB =>
    if ray.next = -1 then (viewPos, ray, nB)
    else
      let innerInit : V3 := (1/10 : ℚ) • ray.albedo
      let innerLoop := crlLightLoop ctx viewPos ray ctx.nrOfLights 0 innerInit nB
      let _discardedInnerColor := innerLoop.1
      crlWhile ctx rayData fuel ray.position
        (rayData.getD ray.next.toNat default) innerLoop.2

/-- `computeRaycastedLighting`: outer accumulator starts at zero, the chain
is walked, and the terminal record's `computeFinalLighting` value — divided
by the final bounce counter — is added to the outer accumulator. -/
def computeRaycastedLighting (ctx : LightingCtx) (rayData : List RayStruct)
    (camPos : V3) (ray : RayStruct) (fuel : ℕ) : V3 :=
  let color : V3 := 0
  let walk := crlWhile ctx rayData fuel camPos ray 0
  color + (1 / (walk.2.2 : ℚ)) •
    ctx.finalLighting walk.1 (toHom walk.2.1.position) walk.2.1.normal
      walk.2.1.albedo walk.2.1.metalness walk.2.1.roughness

/-- `main` of the lighting fragment shader: pixels with `rayId == -1` or
whose seed record has `next == -1` are shaded with `computeFinalLighting` on
the G-buffer surface; the others run `computeRaycastedLighting` from their
seed record. -/
def lightingMain (ctx : LightingCtx) (camPos : V3)
    (rayData : List RayStruct) (pixWorldPos pixWorldNormal pixMaterial : V4)
    (rayId : ℤ) : V4 :=
  let color :=
    if rayId = -1 ∨ (rayData.getD rayId.toNat default).next = -1 then
      ctx.finalLighting camPos pixWorldPos pixWorldNormal.xyz
        pixMaterial.xyz pixWorldNormal.w pixMaterial.w
    else
      computeRaycastedLighting ctx rayData camPos
        (rayData.getD rayId.toNat default) (rayData.length + 1)
  ⟨color.x, color.y, color.z, 1⟩

/-- The chain walk as the claim words it (the refinement target): the same
walk, but each bounce's lighting terms accumulate into the carried color
(the running-count division as in the loop body), and the terminal surface's
direct lighting is then added once, undivided. -/
def claimedWhile (ctx : LightingCtx) (rayData : List RayStruct) :
    ℕ → V3 → V3 → RayStruct → ℕ → V3 × V3 × RayStruct × ℕ
  | 0, color, viewPos, ray, nB => (color, viewPos, ray, nB)
  | fuel + 1, color, viewPos, ray, nB =>
    if ray.next = -1 then (color, viewPos, ray, nB)
    else
      let inner := crlLightLoop ctx viewPos ray ctx.nrOfLights 0 color nB
      claimedWhile ctx rayData fuel inner.1 ray.position
        (rayData.getD ray.next.toNat default) inner.2

/-- The per-pixel chain-walk color as the claim words it. -/
def claimedRaycastedLighting (ctx : LightingCtx) (rayData : List RayStruct)
    (camPos : V3) (ray : RayStruct) (fuel : ℕ) : V3 :=
  let walk := claimedWhile ctx rayData fuel 0 camPos ray 0
  walk.1 + ctx.finalLighting walk.2.1 (toHom walk.2.2.1.position)
    walk.2.2.1.normal walk.2.2.1.albedo walk.2.2.1.metalness
    walk.2.2.1.roughness

/-- Concrete lighting environment for the C4 evaluation: one light, every
bounce lighting term `(1,1,1)`, every surface's direct lighting `(1,1,1)`. -/
def ctxW : LightingCtx :=
  { nrOfLights := 1
    bounceLightTerm := fun _ _ _ => ⟨1, 1, 1⟩
    finalLighting := fun _ _ _ _ _ _ => ⟨1, 1, 1⟩ }

/-- Same environment with a much stronger bounce lighting term, to exhibit
that the shader output does not depend on it. -/
def ctxW2 : LightingCtx :=
  { nrOfLights := 1
    bounceLightTerm := fun _ _ _ => ⟨100, 100, 100⟩
    finalLighting := fun _ _ _ _ _ _ => ⟨1, 1, 1⟩ }

/-- Seed record of a one-bounce chain (its `next` points at slot 1). -/
def rayRec0 : RayStruct :=
  { position := 0, normal := ⟨0, 0, 1⟩, albedo := 0, metalness := 0,
    roughness := 0, rayDir := ⟨0, 0, 1⟩, next := 1 }

/-- Terminal record of the chain (`next = -1`). -/
def rayRec1 : RayStruct :=
  { position := ⟨0, 0, 2⟩, normal := ⟨0, 0, 1⟩, albedo := 0, metalness := 0,
    roughness := 0, rayDir := ⟨0, 0, 1⟩, next := -1 }

/-- The concrete Ray Record Buffer holding that chain. -/
def rayDataW : List RayStruct :=
  [rayRec0, rayRec1]

/-! ## Scene migration (`Eng::PipelineRayTracing::migrate`)

Embedding of `migrate` (`engine_pipeline_raytracing.cpp`, lines 532-667):
the renderable list (lights first, meshes following) is flattened into the
triangle, bounding-sphere and material buffers.  GLM matrices are embedded
as explicit 4x4 rational matrices; `glm::inverseTranspose` is the cofactor
matrix over the determinant; the packed vertex attributes
(`unpackSnorm3x10_1x2` normals, `unpackHalf2x16` UVs) are modelled by their
unpacked values. -/

/-- 4x4 matrix of rationals (GLM `mat4`); field `mRC` is the entry at row
`R`, column `C` (so GLM's `m[3]`, the fourth column, is `(m03,m13,m23,m33)`). -/
structure Mat4 where
  m00 : ℚ
  m01 : ℚ
  m02 : ℚ
  m03 : ℚ
  m10 : ℚ
  m11 : ℚ
  m12 : ℚ
  m13 : ℚ
  m20 : ℚ
  m21 : ℚ
  m22 : ℚ
  m23 : ℚ
  m30 : ℚ
  m31 : ℚ
  m32 : ℚ
  m33 : ℚ
deriving DecidableEq, Repr

instance : Inhabited Mat4 :=
  ⟨⟨0, 0, 0, 0, 0, 0, 0, 0, 0, 0, 0, 0, 0, 0, 0, 0⟩⟩

/-- 3x3 matrix of rationals (GLM `mat3`), row/column fields as in `Mat4`. -/
structure Mat3 where
  n00 : ℚ
  n01 : ℚ
  n02 : ℚ
  n10 : ℚ
  n11 : ℚ
  n12 : ℚ
  n20 : ℚ
  n21 : ℚ
  n22 : ℚ
deriving DecidableEq, Repr

/-- `mat4 * vec4`. -/
def mulVec4 (m : Mat4) (v : V4) : V4 :=
  ⟨m.m00 * v.x + m.m01 * v.y + m.m02 * v.z + m.m03 * v.w,
   m.m10 * v.x + m.m11 * v.y + m.m12 * v.z + m.m13 * v.w,
   m.m20 * v.x + m.m21 * v.y + m.m22 * v.z + m.m23 * v.w,
   m.m30 * v.x + m.m31 * v.y + m.m32 * v.z + m.m33 * v.w⟩

/-- `mat3 * vec3`. -/
def mulVec3 (n : Mat3) (v : V3) : V3 :=
  ⟨n.n00 * v.x + n.n01 * v.y + n.n02 * v.z,
   n.n10 * v.x + n.n11 * v.y + n.n12 * v.z,
   n.n20 * v.x + n.n21 * v.y + n.n22 * v.z⟩

/-- GLM `m[3]`: the fourth column of a `mat4`. -/
def col3 (m : Mat4) : V4 :=
  ⟨m.m03, m.m13, m.m23, m.m33⟩

/-- Determinant of a 3x3 matrix given entrywise. -/
def det3 (a b c d e f g h i : ℚ) : ℚ :=
  a * (e * i - f * h) - b * (d * i - f * g) + c * (d * h - e * g)

/-- Cofactor of a `Mat4` at row 0, column 0 (and so on below). -/
def cof00 (m : Mat4) : ℚ :=
  det3 m.m11 m.m12 m.m13 m.m21 m.m22 m.m23 m.m31 m.m32 m.m33

def cof01 (m : Mat4) : ℚ :=
  -det3 m.m10 m.m12 m.m13 m.m20 m.m22 m.m23 m.m30 m.m32 m.m33

def cof02 (m : Mat4) : ℚ :=
  det3 m.m10 m.m11 m.m13 m.m20 m.m21 m.m23 m.m30 m.m31 m.m33

def cof03 (m : Mat4) : ℚ :=
  -det3 m.m10 m.m11 m.m12 m.m20 m.m21 m.m22 m.m30 m.m31 m.m32

def cof10 (m : Mat4) : ℚ :=
  -det3 m.m01 m.m02 m.m03 m.m21 m.m22 m.m23 m.m31 m.m32 m.m33

def cof11 (m : Mat4) : ℚ :=
  det3 m.m00 m.m02 m.m03 m.m20 m.m22 m.m23 m.m30 m.m32 m.m33

def cof12 (m : Mat4) : ℚ :=
  -det3 m.m00 m.m01 m.m03 m.m20 m.m21 m.m23 m.m30 m.m31 m.m33

def cof20 (m : Mat4) : ℚ :=
  det3 m.m01 m.m02 m.m03 m.m11 m.m12 m.m13 m.m31 m.m32 m.m33

def cof21 (m : Mat4) : ℚ :=
  -det3 m.m00 m.m02 m.m03 m.m10 m.m12 m.m13 m.m30 m.m32 m.m33

def cof22 (m : Mat4) : ℚ :=
  det3 m.m00 m.m01 m.m03 m.m10 m.m11 m.m13 m.m30 m.m31 m.m33

/-- Determinant of a `Mat4` (expansion along the first row). -/
def det4 (m : Mat4) : ℚ :=
  m.m00 * cof00 m + m.m01 * cof01 m + m.m02 * cof02 m + m.m03 * cof03 m

/-- `glm::mat3(glm::inverseTranspose(m))`: the upper-left 3x3 block of the
transposed inverse, i.e. the cofactor matrix over the determinant. -/
def normalMatOf (m : Mat4) : Mat3 :=
  let d := det4 m
  ⟨cof00 m / d, cof01 m / d, cof02 m / d,
   cof10 m / d, cof11 m / d, cof12 m / d,
   cof20 m / d, cof21 m / d, cof22 m / d⟩

/-- One vertex as read back from the VBO (`Eng::Vbo::VertexData`), packed
attributes modelled by their unpacked values. -/
structure VertexData where
  vertex : V3
  normal : V3
  uv : V2
deriving DecidableEq, Repr

instance : Inhabited VertexData := ⟨{ vertex := 0, normal := 0, uv := 0 }⟩

/-- One face as read back from the EBO (`Eng::Ebo::FaceData`): three vertex
indices. -/
structure FaceData where
  a : ℕ
  b : ℕ
  c : ℕ
deriving DecidableEq, Repr

/-- Material properties exposed by the scene collaborator
(`Eng::Material`). -/
structure MaterialSrc where
  albedo : V3
  emission : V3
  metalness : ℚ
  roughness : ℚ
  albedoTexHandle : ℕ
  metalnessTexHandle : ℕ
  roughnessTexHandle : ℕ
deriving DecidableEq, Repr

/-- One mesh renderable: VBO/EBO contents as read back, bounding radius and
material. -/
structure MeshSrc where
  vData : List VertexData
  fData : List FaceData
  radius : ℚ
  material : MaterialSrc
deriving DecidableEq, Repr

instance : Inhabited MeshSrc :=
  ⟨{ vData := [], fData := [], radius := 0,
     material := { albedo := 0, emission := 0, metalness := 0,
                   roughness := 0, albedoTexHandle := 0,
                   metalnessTexHandle := 0, roughnessTexHandle := 0 } }⟩

/-- The renderable list (`Eng::List`): light count first (the migrate loop
body is empty for light entries), then the mesh renderables with their world
matrices, in list order. -/
structure SceneList where
  nrOfLights : ℕ
  meshes : List (Mat4 × MeshSrc)

/-- `Eng::PipelineRayTracing::TriangleStruct`. -/
structure TriangleStruct where
  v0 : V4
  v1 : V4
  v2 : V4
  n0 : V4
  n1 : V4
  n2 : V4
  u0 : V2
  u1 : V2
  u2 : V2
  matId : ℕ
deriving DecidableEq, Repr

instance : Inhabited TriangleStruct :=
  ⟨{ v0 := 0, v1 := 0, v2 := 0, n0 := 0, n1 := 0, n2 := 0,
     u0 := 0, u1 := 0, u2 := 0, matId := 0 }⟩

/-- `Eng::PipelineRayTracing::BSphereStruct`. -/
structure BSphereStruct where
  position : V4
  radius : ℚ
  firstTriangle : ℕ
  nrOfTriangles : ℕ
deriving DecidableEq, Repr

instance : Inhabited BSphereStruct :=
  ⟨{ position := 0, radius := 0, firstTriangle := 0, nrOfTriangles := 0 }⟩

/-- `Eng::PipelineRayTracing::MaterialStruct`. -/
structure MaterialStruct where
  albedo : V4
  emission : V4
  metalness : ℚ
  roughness : ℚ
  albedoTexHandle : ℕ
  metalnessTexHandle : ℕ
  roughnessTexHandle : ℕ
deriving DecidableEq, Repr

instance : Inhabited MaterialStruct :=
  ⟨{ albedo := 0, emission := 0, metalness := 0, roughness := 0,
     albedoTexHandle := 0, metalnessTexHandle := 0,
     roughnessTexHandle := 0 }⟩

/-- One flattened triangle: the three face vertices transformed to world
space by the model matrix, the normals by the normal matrix (homogenised
with `w = 1`), the UVs copied, and the material id recorded. -/
def triOf (modelMat : Mat4) (normalMat : Mat3) (matId : ℕ)
    (vData : List VertexData) (f : FaceData) : TriangleStruct :=
  let va := vData.getD f.a default
  let vb := vData.getD f.b default
  let vc := vData.getD f.c default
  { v0 := mulVec4 modelMat (toHom va.vertex)
    v1 := mulVec4 modelMat (toHom vb.vertex)
    v2 := mulVec4 modelMat (toHom vc.vertex)
    n0 := toHom (mulVec3 normalMat va.normal)
    n1 := toHom (mulVec3 normalMat vb.normal)
    n2 := toHom (mulVec3 normalMat vc.normal)
    u0 := va.uv
    u1 := vb.uv
    u2 := vc.uv
    matId := matId }

/-- All triangles contributed by one mesh renderable, in face order. -/
def meshTriangles (matId : ℕ) (mm : Mat4 × MeshSrc) : List TriangleStruct :=
  mm.2.fData.map (triOf mm.1 (normalMatOf mm.1) matId mm.2.vData)

/-- The bounding-sphere record of one mesh renderable: position from the
model matrix's fourth column, radius from the mesh, and the running
first-triangle offset with the face count. -/
def bsphereOf (firstTriangle : ℕ) (mm : Mat4 × MeshSrc) : BSphereStruct :=
  { position := col3 mm.1
    radius := mm.2.radius
    firstTriangle := firstTriangle
    nrOfTriangles := mm.2.fData.length }

/-- The material record of one mesh renderable (`vec4(albedo, 1)`,
`vec4(emission, 1)`, scalars and bindless handles copied). -/
def materialStructOf (m : MaterialSrc) : MaterialStruct :=
  { albedo := toHom m.albedo
    emission := toHom m.emission
    metalness := m.metalness
    roughness := m.roughness
    albedoTexHandle := m.albedoTexHandle
    metalnessTexHandle := m.metalnessTexHandle
    roughnessTexHandle := m.roughnessTexHandle }

/-- The second pass of `migrate` over the mesh renderables, carrying the
running face counter (`nrOfFaces`) and the mesh index (`c - nrOfLights`,
which is both the triangle `matId` and the slot in the material array). -/
def migrateMeshes :
    ℕ → ℕ → List (Mat4 × MeshSrc) →
      List TriangleStruct × List BSphereStruct × List MaterialStruct
  | _, _, [] => ([], [], [])
  | firstFace, matId, mm :: rest =>
    let res := migrateMeshes (firstFace + mm.2.fData.length) (matId + 1) rest
    (meshTriangles matId mm ++ res.1,
     bsphereOf firstFace mm :: res.2.1,
     materialStructOf mm.2.material :: res.2.2)

/-- The RT-specific reserved buffers filled by `migrate` (the three SSBOs
and the scene counts). -/
structure RTBuffers where
  triangles : List TriangleStruct
  bspheres : List BSphereStruct
  materials : List MaterialStruct
  nrOfTriangles : ℕ
  nrOfMeshes : ℕ
  nrOfMaterials : ℕ
deriving DecidableEq, Repr

/-- `Eng::PipelineRayTracing::migrate` on a valid (non-empty-sentinel)
renderable list: flattens the meshes and uploads the three buffers.  The
material SSBO is allocated for `nrOfMaterials = nrOfRenderables` entries but
only the first `nrOfMeshes` are filled; the tail entries stay
value-initialised (the `std::vector` zero state). -/
def migrate (l : SceneList) : RTBuffers :=
  let bufs := migrateMeshes 0 0 l.meshes
  { triangles := bufs.1
    bspheres := bufs.2.1
    materials := bufs.2.2 ++ List.replicate l.nrOfLights default
    nrOfTriangles := bufs.1.length
    nrOfMeshes := l.meshes.length
    nrOfMaterials := l.nrOfLights + l.meshes.length }

/-- `migrate` as a transition on the reserved state: the previous buffer
contents are unconditionally overwritten (`Ssbo::create` recreates each
buffer), nothing of the previous state is read. -/
def migrateUpdate (l : SceneList) (_s : RTBuffers) : RTBuffers :=
  migrate l

/-- Face count of the first `i` meshes of a renderable list. -/
def facesBefore (ms : List (Mat4 × MeshSrc)) (i : ℕ) : ℕ :=
  ((ms.take i).map (fun mm => mm.2.fData.length)).sum

/-- Total face count of a renderable list. -/
def totalFaces (ms : List (Mat4 × MeshSrc)) : ℕ :=
  (ms.map (fun mm => mm.2.fData.length)).sum

/-- Concrete one-light, one-mesh scene used as the C6 evaluation witness:
one triangle, identity world matrix. -/
def sceneW : SceneList :=
  { nrOfLights := 1
    meshes :=
      [(⟨1, 0, 0, 0, 0, 1, 0, 0, 0, 0, 1, 0, 0, 0, 0, 1⟩,
        { vData :=
            [{ vertex := ⟨0, 0, 0⟩, normal := ⟨0, 0, 1⟩, uv := ⟨0, 0⟩ },
             { vertex := ⟨1, 0, 0⟩, normal := ⟨0, 0, 1⟩, uv := ⟨1, 0⟩ },
             { vertex := ⟨0, 1, 0⟩, normal := ⟨0, 0, 1⟩, uv := ⟨0, 1⟩ }]
          fData := [⟨0, 1, 2⟩]
          radius := 2
          material :=
            { albedo := ⟨1, 0, 0⟩, emission := 0, metalness := 0,
              roughness := 1/2, albedoTexHandle := 7,
              metalnessTexHandle := 8, roughnessTexHandle := 9 } })] }

/-! ## Pass render guards and the shadow-mapping pass

Embedding of the render entry points of `Eng::PipelineShadowMapping`,
`Eng::PipelineGeometry` and `Eng::PipelineRayTracing`.  Each `render` begins
with a sentinel check (`list == Eng::List::empty`, plus
`camera == Eng::Camera::empty` for the ray tracer) that logs an error and
returns `false` before the pipeline cache update, the lazy initialization
and any GPU work; the embedding records the performed effects in order. -/

/-- Host/GPU effects a render call may perform, in program order. -/
inductive Eff where
  | logError
  | cacheUpdate
  | lazyInit
  | bindProgram
  | gpuWork
deriving DecidableEq, Repr

/-- Lazy-initialization state of a pass (`Managed` dirty flag, and whether
the shader/program build would succeed). -/
structure PassState where
  dirty : Bool
  buildOk : Bool
deriving DecidableEq, Repr

/-- State of the shadow-mapping pass: dirty flag, build outcome, and the
number of shadow maps created so far (`Reserved::shadowMapCount`). -/
structure SMState where
  dirty : Bool
  buildOk : Bool
  shadowMapCount : ℕ
deriving DecidableEq, Repr

/-- `MAX_LIGHTS`: the fixed capacity of the `depthMaps` array. -/
def MAX_LIGHTS : ℕ :=
  4

/-- The `depthMaps[i]` indices accessed by
`PipelineShadowMapping::init(nrOfLights)`: its creation loop runs
`for (i = 0; i < nrOfLights; i++)` with no clamp to the array capacity. -/
def smInitAccesses (nrOfLights : ℕ) : List ℕ :=
  List.range nrOfLights

/-- `PipelineShadowMapping::init(nrOfLights)`: rejects a non-positive light
count and a failed build; otherwise creates one depth map per light,
incrementing `shadowMapCount` once per loop iteration, and clears the dirty
flag. -/
def smInit (nrOfLights : ℕ) (st : SMState) : Bool × SMState :=
  if ¬ st.dirty then (false, st)
  else if nrOfLights = 0 then (false, st)
  else if ¬ st.buildOk then (false, st)
  else
    (true,
     { st with
       dirty := false
       shadowMapCount := st.shadowMapCount + nrOfLights })

/-- The `depthMaps[lightNumber]` indices accessed by the per-light loop of
`PipelineShadowMapping::render` (one `attachDepthTexture(i)` per light of
the list, again unclamped). -/
def smRenderDepthAccesses (nrOfLights : ℕ) : List ℕ :=
  List.range nrOfLights

/-- `PipelineShadowMapping::render`: the empty-list sentinel check comes
first (log + `false`, nothing else); then the cache update, the lazy
`init(list.getNrOfLights())` when dirty, and one depth-only rendering per
light. -/
def smRender (listEmpty : Bool) (nrOfLights : ℕ) (st : SMState) :
    Bool × SMState × List Eff :=
  if listEmpty then (false, st, [Eff.logError])
  else if st.dirty then
    match smInit nrOfLights st with
    | (false, st1) =>
      (false, st1, [Eff.cacheUpdate, Eff.lazyInit, Eff.logError])
    | (true, st1) =>
      (true, st1, [Eff.cacheUpdate, Eff.lazyInit, Eff.bindProgram] ++
        (smRenderDepthAccesses nrOfLights).map (fun _ => Eff.gpuWork))
  else
    (true, st, [Eff.cacheUpdate, Eff.bindProgram] ++
      (smRenderDepthAccesses nrOfLights).map (fun _ => Eff.gpuWork))

/-- A light renderable as consumed by the shadow render loop: its world
matrix (from the renderable element) and its stored projection matrix. -/
structure LightSrc where
  matrix : Mat4
  projMatrix : Mat4
deriving DecidableEq, Repr

def cof13 (m : Mat4) : ℚ :=
  det3 m.m00 m.m01 m.m02 m.m20 m.m21 m.m22 m.m30 m.m31 m.m32

def cof23 (m : Mat4) : ℚ :=
  -det3 m.m00 m.m01 m.m02 m.m10 m.m11 m.m12 m.m30 m.m31 m.m32

def cof30 (m : Mat4) : ℚ :=
  -det3 m.m01 m.m02 m.m03 m.m11 m.m12 m.m13 m.m21 m.m22 m.m23

def cof31 (m : Mat4) : ℚ :=
  det3 m.m00 m.m02 m.m03 m.m10 m.m12 m.m13 m.m20 m.m22 m.m23

def cof32 (m : Mat4) : ℚ :=
  -det3 m.m00 m.m01 m.m03 m.m10 m.m11 m.m13 m.m20 m.m21 m.m23

def cof33 (m : Mat4) : ℚ :=
  det3 m.m00 m.m01 m.m02 m.m10 m.m11 m.m12 m.m20 m.m21 m.m22

/-- `glm::inverse` on a `mat4`: the transposed cofactor matrix (adjugate)
over the determinant. -/
def inverseMat4 (m : Mat4) : Mat4 :=
  let d := det4 m
  ⟨cof00 m / d, cof10 m / d, cof20 m / d, cof30 m / d,
   cof01 m / d, cof11 m / d, cof21 m / d, cof31 m / d,
   cof02 m / d, cof12 m / d, cof22 m / d, cof32 m / d,
   cof03 m / d, cof13 m / d, cof23 m / d, cof33 m / d⟩

/-- The per-light matrices used by the shadow render loop, in light order:
`projectionMat` is the light's stored projection matrix, the view matrix is
`glm::inverse(lightRe.matrix)`. -/
def smLightMatrices (lights : List LightSrc) : List (Mat4 × Mat4) :=
  lights.map (fun lw => (lw.projMatrix, inverseMat4 lw.matrix))

/-- `PipelineGeometry::render`, control-flow skeleton: the empty-list
sentinel check first, then the cache update, the lazy init and the
rasterization work (the data part of the pass is `geomRender` above). -/
def geomRenderEntry (listEmpty : Bool) (st : PassState) :
    Bool × PassState × List Eff :=
  if listEmpty then (false, st, [Eff.logError])
  else if st.dirty then
    if st.buildOk then
      (true, { st with dirty := false },
       [Eff.cacheUpdate, Eff.lazyInit, Eff.bindProgram, Eff.gpuWork])
    else (false, st, [Eff.cacheUpdate, Eff.lazyInit, Eff.logError])
  else (true, st, [Eff.cacheUpdate, Eff.bindProgram, Eff.gpuWork])

/-- `PipelineRayTracing::render`, control-flow skeleton: the sentinel check
on camera and list first; a zero bounce count is a silent no-op success;
then cache update, lazy init and the indirect dispatch. -/
def rtRenderEntry (camEmpty listEmpty : Bool) (nrOfBounces : ℕ)
    (st : PassState) : Bool × PassState × List Eff :=
  if camEmpty ∨ listEmpty then (false, st, [Eff.logError])
  else if nrOfBounces = 0 then (true, st, [])
  else if st.dirty then
    if st.buildOk then
      (true, { st with dirty := false },
       [Eff.cacheUpdate, Eff.lazyInit, Eff.bindProgram, Eff.gpuWork])
    else (false, st, [Eff.cacheUpdate, Eff.lazyInit, Eff.logError])
  else (true, st, [Eff.cacheUpdate, Eff.bindProgram, Eff.gpuWork])

theorem seededCount_nil (thr : ℚ) : seededCount thr [] = 0 := rfl

theorem seededCount_cons (thr : ℚ) (f : FragIn) (l : List FragIn) :
    seededCount thr (f :: l) =
      seededCount thr l + (if f.roughness ≤ thr then 1 else 0) := by
  by_cases h : f.roughness ≤ thr <;>
    simp [seededCount, List.countP_cons, h]

theorem seededCount_le_length (thr : ℚ) (l : List FragIn) :
    seededCount thr l ≤ l.length :=
  List.countP_le_length _

theorem seededCount_append (thr : ℚ) (l₁ l₂ : List FragIn) :
    seededCount thr (l₁ ++ l₂) = seededCount thr l₁ + seededCount thr l₂ :=
  List.countP_append _ _ _

theorem geomPassAux_cons (camPos : V3) (thr : ℚ) (f : FragIn)
    (rest : List FragIn) (st : GeomState) :
    geomPassAux camPos thr (f :: rest) st =
      ((shadeFragment camPos thr f st).1 ::
         (geomPassAux camPos thr rest (shadeFragment camPos thr f st).2).1,
       (geomPassAux camPos thr rest (shadeFragment camPos thr f st).2).2) := by
  simp [geomPassAux]

/-- The counter after one fragment: unchanged when the fragment is rejected,
incremented when it seeds. -/
theorem shadeFragment_counter (camPos : V3) (thr : ℚ) (f : FragIn)
    (st : GeomState) :
    ((shadeFragment camPos thr f st).2).counter =
      if f.roughness > thr then st.counter else st.counter + 1 := by
  by_cases h : f.roughness > thr <;> simp [shadeFragment, h]

/-- The ray buffer after one fragment: unchanged length when rejected, one
record appended when seeded. -/
theorem shadeFragment_rayData_length (camPos : V3) (thr : ℚ) (f : FragIn)
    (st : GeomState) :
    ((shadeFragment camPos thr f st).2).rayData.length =
      if f.roughness > thr then st.rayData.length
      else st.rayData.length + 1 := by
  by_cases h : f.roughness > thr <;> simp [shadeFragment, h]

/-- The ray-index output of one fragment. -/
theorem shadeFragment_rayDataId (camPos : V3) (thr : ℚ) (f : FragIn)
    (st : GeomState) :
    ((shadeFragment camPos thr f st).1).rayDataId =
      if f.roughness > thr then -1 else ((st.counter : ℕ) : ℤ) := by
  by_cases h : f.roughness > thr <;> simp [shadeFragment, h]

/-- The color outputs of one fragment do not depend on the threshold nor on
the shared state. -/
theorem shadeFragment_colorOut (camPos : V3) (thr : ℚ) (f : FragIn)
    (st : GeomState) :
    ((shadeFragment camPos thr f st).1).positionOut = toHom f.fragPosition ∧
    ((shadeFragment camPos thr f st).1).normalOut =
      ⟨f.normal.x, f.normal.y, f.normal.z, f.metalness⟩ ∧
    ((shadeFragment camPos thr f st).1).albedoOut =
      ⟨f.albedo.x, f.albedo.y, f.albedo.z, f.roughness⟩ := by
  by_cases h : f.roughness > thr <;> simp [shadeFragment, h]

/-- The number of outputs equals the number of fragments. -/
theorem geomPassAux_length (camPos : V3) (thr : ℚ) (frags : List FragIn)
    (st : GeomState) :
    (geomPassAux camPos thr frags st).1.length = frags.length := by
  induction frags generalizing st with
  | nil => rfl
  | cons f rest ih =>
    rw [geomPassAux_cons]
    simp [ih]

/-- The final counter adds exactly the number of seeded fragments. -/
theorem geomPassAux_counter (camPos : V3) (thr : ℚ) (frags : List FragIn)
    (st : GeomState) :
    (geomPassAux camPos thr frags st).2.counter =
      st.counter + seededCount thr frags := by
  induction frags generalizing st with
  | nil => simp [geomPassAux, seededCount]
  | cons f rest ih =>
    rw [geomPassAux_cons]
    simp only [ih, shadeFragment_counter, seededCount_cons]
    by_cases h : f.roughness > thr
    · have h2 : ¬ f.roughness ≤ thr := not_le.mpr h
      simp [h, h2]
    · have h2 : f.roughness ≤ thr := not_lt.mp h
      simp [h, h2]
      omega

/-- One record is appended to the ray buffer per seeded fragment. -/
theorem geomPassAux_rayData_length (camPos : V3) (thr : ℚ)
    (frags : List FragIn) (st : GeomState) :
    (geomPassAux camPos thr frags st).2.rayData.length =
      st.rayData.length + seededCount thr frags := by
  induction frags generalizing st with
  | nil => simp [geomPassAux, seededCount]
  | cons f rest ih =>
    rw [geomPassAux_cons]
    simp only [ih, shadeFragment_rayData_length, seededCount_cons]
    by_cases h : f.roughness > thr
    · have h2 : ¬ f.roughness ≤ thr := not_le.mpr h
      simp [h, h2]
    · have h2 : f.roughness ≤ thr := not_lt.mp h
      simp [h, h2]
      omega

/-- Closed form of the per-pixel ray-index output: `-1` for non-seeded
fragments, the running seed count (offset by the incoming counter) for
seeded ones. -/
theorem geomPassAux_rayDataId (camPos : V3) (thr : ℚ) (frags : List FragIn)
    (st : GeomState) (i : ℕ) (hi : i < frags.length) :
    ((geomPassAux camPos thr frags st).1.getD i default).rayDataId =
      if (frags.getD i default).roughness > thr then -1
      else ((st.counter + seededCount thr (frags.take i) : ℕ) : ℤ) := by
  induction frags generalizing st i with
  | nil => simp at hi
  | cons f rest ih =>
    rw [geomPassAux_cons]
    cases i with
    | zero =>
      simpa [seededCount] using shadeFragment_rayDataId camPos thr f st
    | succ i =>
      have hi2 : i < rest.length := by simpa using hi
      rw [List.getD_cons_succ, List.getD_cons_succ, List.take_succ_cons,
        ih _ i hi2, shadeFragment_counter, seededCount_cons]
      by_cases h : f.roughness > thr
      · have h2 : ¬ f.roughness ≤ thr := not_le.mpr h
        simp [h, h2]
      · have h2 : f.roughness ≤ thr := not_lt.mp h
        simp only [if_neg h, h2, if_pos]
        split <;> [rfl; skip]
        congr 1
        omega

/-- A prefix of the fragment stream has seeded strictly fewer fragments than
the whole stream whenever the fragment right after the prefix seeds. -/
theorem seededCount_take_lt (thr : ℚ) (l : List FragIn) (i : ℕ)
    (hi : i < l.length) (hs : (l.getD i default).roughness ≤ thr) :
    seededCount thr (l.take i) < seededCount thr l := by
  induction l generalizing i with
  | nil => simp at hi
  | cons f rest ih =>
    cases i with
    | zero =>
      have : f.roughness ≤ thr := by simpa using hs
      simp [seededCount_cons, this, seededCount]
    | succ i =>
      have hi2 : i < rest.length := by simpa using hi
      have hs2 : (rest.getD i default).roughness ≤ thr := by simpa using hs
      have := ih i hi2 hs2
      rw [List.take_succ_cons, seededCount_cons, seededCount_cons]
      omega

/-- The per-fragment color outputs of a whole geometry pass, in closed form:
they depend only on the sampled fragment attributes. -/
theorem geomPassAux_colors (camPos : V3) (thr : ℚ) (frags : List FragIn)
    (st : GeomState) :
    (geomPassAux camPos thr frags st).1.map
        (fun o => (o.positionOut, o.normalOut, o.albedoOut)) =
      frags.map (fun f => (toHom f.fragPosition,
        (⟨f.normal.x, f.normal.y, f.normal.z, f.metalness⟩ : V4),
        (⟨f.albedo.x, f.albedo.y, f.albedo.z, f.roughness⟩ : V4))) := by
  induction frags generalizing st with
  | nil => rfl
  | cons f rest ih =>
    rw [geomPassAux_cons]
    obtain ⟨h1, h2, h3⟩ := shadeFragment_colorOut camPos thr f st
    simp [h1, h2, h3, ih]

/-- The seed counter of a full render (counter reset to zero first) is the
number of seeded fragments. -/
theorem geomRender_counter (camPos : V3) (thr : ℚ) (frags : List FragIn) :
    (geomRender camPos thr frags).2.counter = seededCount thr frags := by
  rw [show geomRender camPos thr frags =
    geomPassAux camPos thr frags ⟨0, []⟩ from rfl, geomPassAux_counter]
  simp

/-- The Ray Record Buffer of a full render holds one record per seeded
fragment. -/
theorem geomRender_rayData_length (camPos : V3) (thr : ℚ)
    (frags : List FragIn) :
    (geomRender camPos thr frags).2.rayData.length = seededCount thr frags := by
  rw [show geomRender camPos thr frags =
    geomPassAux camPos thr frags ⟨0, []⟩ from rfl, geomPassAux_rayData_length]
  simp

/-- Per-pixel ray-index image of a full render, in closed form. -/
theorem geomRender_rayDataId (camPos : V3) (thr : ℚ) (frags : List FragIn)
    (i : ℕ) (hi : i < frags.length) :
    ((geomRender camPos thr frags).1.getD i default).rayDataId =
      if (frags.getD i default).roughness > thr then -1
      else ((seededCount thr (frags.take i) : ℕ) : ℤ) := by
  rw [show geomRender camPos thr frags =
    geomPassAux camPos thr frags ⟨0, []⟩ from rfl,
    geomPassAux_rayDataId camPos thr frags ⟨0, []⟩ i hi]
  simp

/-- C1: a fragment of the geometry pass seeds a ray record if and only if its
sampled roughness is `<=` the `roughnessThreshold` uniform, and after the
pass its ray-index entry is a non-negative index into the populated Ray
Record Buffer when it seeded, and exactly `-1` when it did not. -/
theorem geom_seeding_iff_and_index_range (camPos : V3) (thr : ℚ)
    (frags : List FragIn) (i : ℕ) (hi : i < frags.length) :
    ((frags.getD i default).roughness ≤ thr ↔
       ((geomRender camPos thr frags).1.getD i default).rayDataId ≠ -1) ∧
    ((frags.getD i default).roughness ≤ thr →
       0 ≤ ((geomRender camPos thr frags).1.getD i default).rayDataId ∧
       ((geomRender camPos thr frags).1.getD i default).rayDataId <
         ((geomRender camPos thr frags).2.rayData.length : ℤ)) ∧
    (thr < (frags.getD i default).roughness →
       ((geomRender camPos thr frags).1.getD i default).rayDataId = -1) := by
  have key := geomRender_rayDataId camPos thr frags i hi
  have hlen := geomRender_rayData_length camPos thr frags
  by_cases h : (frags.getD i default).roughness > thr
  · have h2 : ¬ (frags.getD i default).roughness ≤ thr := not_le.mpr h
    rw [if_pos h] at key
    refine ⟨?_, ?_, ?_⟩
    · rw [key]
      exact iff_of_false h2 (by simp)
    · intro hc; exact absurd hc h2
    · intro _; exact key
  · have h2 : (frags.getD i default).roughness ≤ thr := not_lt.mp h
    rw [if_neg h] at key
    refine ⟨?_, ?_, ?_⟩
    · rw [key]
      exact iff_of_true h2 (by omega)
    · intro _
      constructor
      · rw [key]; omega
      · rw [key, hlen]
        have := seededCount_take_lt thr frags i hi h2
        omega
    · intro hc; exact absurd hc (not_lt.mpr h2)

/-- Witness for C1 at a concrete two-fragment pass (threshold 1/4, second
fragment smooth enough to seed). -/
theorem geom_seeding_iff_and_index_range_witness :
    1 < ([fragRough, fragSmooth] : List FragIn).length ∧
    (([fragRough, fragSmooth] : List FragIn).getD 1 default).roughness ≤
      (1/4 : ℚ) ∧
    ((geomRender 0 (1/4) [fragRough, fragSmooth]).1.getD 1
        default).rayDataId ≠ -1 :=
  have h := geom_seeding_iff_and_index_range 0 (1/4) [fragRough, fragSmooth]
    1 (by norm_num)
  have hr : (([fragRough, fragSmooth] : List FragIn).getD 1
      default).roughness ≤ (1/4 : ℚ) := by
    norm_num [fragRough, fragSmooth]
  ⟨by norm_num, hr, h.1.mp hr⟩

/-- The spec's `ceil(seeds / 64)` in closed integer form. -/
theorem workgroupCount_eq_ceil (n : ℕ) :
    (workgroupCount n : ℤ) = ⌈(n : ℚ) / 64⌉ := by
  have h1 : (n : ℚ) ≤ 64 * (workgroupCount n : ℚ) := by
    have h := (by unfold workgroupCount; omega : n ≤ 64 * workgroupCount n)
    exact_mod_cast h
  have h2 : 64 * (workgroupCount n : ℚ) < (n : ℚ) + 64 := by
    have h := (by unfold workgroupCount; omega :
      64 * workgroupCount n < n + 64)
    exact_mod_cast h
  have hcast : ((workgroupCount n : ℤ) : ℚ) = (workgroupCount n : ℚ) := by
    exact_mod_cast rfl
  rw [eq_comm, Int.ceil_eq_iff, hcast]
  constructor
  · linarith
  · linarith

/-- C2 counterexample: the seeding shader performs its atomic increment per
rasterized fragment — it declares no early fragment tests, so occluded
fragments seed too.  Two smooth fragments covering the same pixel (a
G-buffer footprint of one pixel) yield a seed count of 2 after a
reset-preceded full render: the claimed bound "seed count <= pixel count"
fails under overdraw. -/
theorem overdraw_exceeds_pixel_count :
    (geomRenderRaster 0 0 streamOverdrawW).2.counter = 2 ∧
    coveredPixelCount streamOverdrawW = 1 ∧
    ¬ ((geomRenderRaster 0 0 streamOverdrawW).2.counter ≤
        coveredPixelCount streamOverdrawW) := by
  refine ⟨rfl, by decide, by decide⟩

/-- C2 as amended: after a geometry pass preceded by the seed-counter
reset, the seed count is at most the number of fragments shaded (each
fragment seeds at most once); it is bounded by the G-buffer's covered-pixel
count exactly when no pixel is covered by two fragments (no overdraw).  The
Indirect Dispatch Command holds `ceil(seeds / 64)` workgroups of 64
threads, and the ray-tracing pass sizes its indirect dispatch from exactly
that workgroup count. -/
theorem geom_seedCount_le_fragments_and_dispatch (camPos : V3) (thr : ℚ)
    (stream : List RasterFragment) :
    (geomRenderRaster camPos thr stream).2.counter ≤ stream.length ∧
    ((stream.map (fun rf => rf.pixel)).Nodup →
      (geomRenderRaster camPos thr stream).2.counter ≤
        coveredPixelCount stream) ∧
    ((workgroupCount (geomRenderRaster camPos thr stream).2.counter : ℤ) =
      ⌈((geomRenderRaster camPos thr stream).2.counter : ℚ) / 64⌉) ∧
    rtDispatchGroups (geomRenderRaster camPos thr stream).2 =
      workgroupCount (geomRenderRaster camPos thr stream).2.counter := by
  have hle : (geomRenderRaster camPos thr stream).2.counter ≤
      stream.length := by
    rw [show (geomRenderRaster camPos thr stream).2 =
      (geomRender camPos thr (stream.map (fun rf => rf.frag))).2 from rfl,
      geomRender_counter]
    calc seededCount thr (stream.map (fun rf => rf.frag)) ≤
        (stream.map (fun rf => rf.frag)).length :=
          seededCount_le_length thr _
      _ = stream.length := List.length_map _ _
  refine ⟨hle, ?_, workgroupCount_eq_ceil _, rfl⟩
  intro hnodup
  have hpix : coveredPixelCount stream = stream.length := by
    rw [coveredPixelCount, List.dedup_eq_self.mpr hnodup, List.length_map]
  rw [hpix]
  exact hle

/-- Witness for the amended C2 on a concrete no-overdraw stream: the pixel
coordinates are pairwise distinct, and the seed count is bounded by the
covered-pixel count. -/
theorem geom_seedCount_le_fragments_and_dispatch_witness :
    (streamW.map (fun rf => rf.pixel)).Nodup ∧
    (geomRenderRaster 0 0 streamW).2.counter ≤ coveredPixelCount streamW :=
  ⟨by decide,
   (geom_seedCount_le_fragments_and_dispatch 0 0 streamW).2.1 (by decide)⟩

/-- C5 counterexample: with `roughnessThreshold = 0`, a fragment whose
sampled roughness is exactly `0` still seeds (the shader rejects only on the
strict comparison `roughness > threshold`), so the seed counter does not
stay `0` and its ray-index entry is `0`, not `-1`. -/
theorem threshold_zero_still_seeds :
    (geomRender 0 0 [fragZero]).2.counter = 1 ∧
    ¬ (geomRender 0 0 [fragZero]).2.counter = 0 ∧
    ((geomRender 0 0 [fragZero]).1.getD 0 default).rayDataId = 0 := by
  refine ⟨rfl, by decide, rfl⟩

/-- C5 as amended: with `roughnessThreshold = 0`, no fragment of strictly
positive sampled roughness seeds — under that proviso every ray-index entry
is `-1` and the seed counter stays `0` (a fragment of roughness exactly `0`
does seed, see the counterexample). -/
theorem threshold_zero_no_positive_roughness_seeds (camPos : V3)
    (frags : List FragIn) (hpos : ∀ f ∈ frags, 0 < f.roughness) :
    (∀ i < frags.length,
       ((geomRender camPos 0 frags).1.getD i default).rayDataId = -1) ∧
    (geomRender camPos 0 frags).2.counter = 0 := by
  have hz : seededCount 0 frags = 0 := by
    refine List.countP_eq_zero.mpr ?_
    intro f hf
    simpa using not_le.mpr (hpos f hf)
  constructor
  · intro i hi
    have key := geomRender_rayDataId camPos 0 frags i hi
    have hmem : frags.getD i default ∈ frags := by
      rw [List.getD_eq_getElem frags default hi]
      exact List.getElem_mem hi
    rw [if_pos (hpos _ hmem)] at key
    exact key
  · rw [geomRender_counter, hz]

/-- Witness for the amended C5 on a concrete all-rough fragment stream. -/
theorem threshold_zero_no_positive_roughness_seeds_witness :
    (∀ f ∈ ([fragRough] : List FragIn), 0 < f.roughness) ∧
    ((∀ i < ([fragRough] : List FragIn).length,
        ((geomRender 0 0 [fragRough]).1.getD i default).rayDataId = -1) ∧
     (geomRender 0 0 [fragRough]).2.counter = 0) :=
  ⟨by norm_num [fragRough], threshold_zero_no_positive_roughness_seeds 0
    [fragRough] (by norm_num [fragRough])⟩

/-- C10: the three G-buffer color outputs of the geometry pass (world
position, normal+metalness, albedo+roughness) are identical across any two
runs that differ only in `roughnessThreshold`: the shader writes them (and
the default ray index) before evaluating the seeding condition. -/
theorem geom_colors_threshold_independent (camPos : V3) (thr₁ thr₂ : ℚ)
    (frags : List FragIn) :
    (geomRender camPos thr₁ frags).1.map
        (fun o => (o.positionOut, o.normalOut, o.albedoOut)) =
      (geomRender camPos thr₂ frags).1.map
        (fun o => (o.positionOut, o.normalOut, o.albedoOut)) := by
  rw [show geomRender camPos thr₁ frags =
    geomPassAux camPos thr₁ frags ⟨0, []⟩ from rfl,
    show geomRender camPos thr₂ frags =
    geomPassAux camPos thr₂ frags ⟨0, []⟩ from rfl,
    geomPassAux_colors, geomPassAux_colors]

/-- Chain walks are stable under extra fuel. -/
theorem chainFrom_mono (st : RTState) :
    ∀ f f' i l, f ≤ f' → chainFrom st f i = some l →
      chainFrom st f' i = some l := by
  intro f
  induction f with
  | zero =>
    intro f' i l _ h
    simp [chainFrom] at h
  | succ f ih =>
    intro f' i l hle h
    obtain ⟨f2, rfl⟩ : ∃ f2, f' = f2 + 1 := ⟨f' - 1, by omega⟩
    rw [chainFrom] at h ⊢
    by_cases h1 : (st.buf i).next = -1
    · simpa [h1] using h
    · by_cases h2 : 0 ≤ (st.buf i).next
      · simp only [h1, if_false, h2, if_true, Option.map_eq_some'] at h ⊢
        obtain ⟨l2, hl2, rfl⟩ := h
        exact ⟨l2, ih f2 _ l2 (by omega) hl2, rfl⟩
      · simp [h1, h2] at h

/-- The counter of the shared state never decreases during `rayCasting`. -/
theorem rayCasting_counter_mono (intersect : Ray → Option HitInfo) :
    ∀ c ray index st,
      st.counter ≤ (rayCasting intersect c ray index st).counter := by
  intro c
  induction c with
  | zero => intro ray index st; exact le_refl _
  | succ c ih =>
    intro ray index st
    rw [rayCasting]
    cases intersect ray with
    | none => exact ih ray index st
    | some hit =>
      have := ih
        ⟨(⟨hit.collisionPoint, hit.normal, hit.albedo, hit.metalness,
          hit.roughness, reflect ray.dir hit.normal, -1⟩ : RayStruct).position
           + (2 * K_EPSILON) • hit.faceNormal,
         reflect ray.dir hit.normal⟩
        st.counter (rayCastStep ray index hit st).2.2
      calc st.counter ≤ st.counter + 1 := by omega
        _ ≤ _ := this

/-- `rayCasting` touches only the record its `index` argument points at and
freshly allocated slots: any other slot below the incoming counter is left
unchanged. -/
theorem rayCasting_frame (intersect : Ray → Option HitInfo) :
    ∀ c ray index st j, j < st.counter → j ≠ index →
      (rayCasting intersect c ray index st).buf j = st.buf j := by
  intro c
  induction c with
  | zero => intro ray index st j _ _; rfl
  | succ c ih =>
    intro ray index st j hj hne
    rw [rayCasting]
    cases intersect ray with
    | none => exact ih ray index st j hj hne
    | some hit =>
      have hstep := ih (rayCastStep ray index hit st).1
        (rayCastStep ray index hit st).2.1 (rayCastStep ray index hit st).2.2
        j (by simp only [rayCastStep]; omega)
        (by simp only [rayCastStep]; omega)
      rw [hstep]
      simp only [rayCastStep]
      rw [Function.update_noteq (by omega), Function.update_noteq hne]

/-- Core induction for C3: after `rayCasting` with `c` bounces from a seed
whose record is a chain tail (`next = -1`), some `k ≤ c` fresh records were
allocated, and the walk from the seed visits exactly the seed slot followed
by the `k` consecutively allocated slots. -/
theorem rayCasting_chain (intersect : Ray → Option HitInfo) :
    ∀ c ray index st, index < st.counter → (st.buf index).next = -1 →
      ∃ k, k ≤ c ∧
        (rayCasting intersect c ray index st).counter = st.counter + k ∧
        chainFrom (rayCasting intersect c ray index st) (c + 1) index =
          some (index :: List.range' st.counter k) := by
  intro c
  induction c with
  | zero =>
    intro ray index st hidx hnext
    exact ⟨0, le_refl 0, rfl, by simp [chainFrom, hnext, rayCasting]⟩
  | succ c ih =>
    intro ray index st hidx hnext
    rw [rayCasting]
    cases hI : intersect ray with
    | none =>
      obtain ⟨k, hk, hc, hch⟩ := ih ray index st hidx hnext
      exact ⟨k, by omega, hc, chainFrom_mono _ (c + 1) (c + 2) _ _
        (by omega) hch⟩
    | some hit =>
      have hidx1 : (rayCastStep ray index hit st).2.1 <
          (rayCastStep ray index hit st).2.2.counter := by
        simp only [rayCastStep]; omega
      have hnext1 :
          ((rayCastStep ray index hit st).2.2.buf
            (rayCastStep ray index hit st).2.1).next = -1 := by
        simp [rayCastStep]
      obtain ⟨k, hk, hc, hch⟩ := ih (rayCastStep ray index hit st).1
        (rayCastStep ray index hit st).2.1
        (rayCastStep ray index hit st).2.2 hidx1 hnext1
      have hstep2 : (rayCastStep ray index hit st).2.1 = st.counter := rfl
      have hstepc : (rayCastStep ray index hit st).2.2.counter =
          st.counter + 1 := rfl
      refine ⟨k + 1, by omega, ?_, ?_⟩
      · rw [hc, hstepc]; omega
      · have hbufidx :
            ((rayCasting intersect c (rayCastStep ray index hit st).1
              (rayCastStep ray index hit st).2.1
              (rayCastStep ray index hit st).2.2).buf index).next =
            (st.counter : ℤ) := by
          rw [rayCasting_frame intersect c _ _ _ index
            (by rw [hstepc]; omega) (by rw [hstep2]; omega)]
          simp only [rayCastStep]
          rw [Function.update_noteq (by omega), Function.update_same]
        rw [show c + 1 + 1 = (c + 1) + 1 from rfl, chainFrom]
        simp only [hbufidx]
        have hne1 : ((st.counter : ℤ)) = -1 ↔ False := by
          constructor
          · intro h; omega
          · intro h; exact h.elim
        rw [if_neg (by omega), if_pos (by omega)]
        rw [show ((st.counter : ℤ)).toNat = st.counter from by omega]
        rw [hstep2] at hch ⊢
        rw [hstepc] at hch
        rw [hch]
        rw [show List.range' st.counter (k + 1) =
          st.counter :: List.range' (st.counter + 1) k from rfl]
        rfl

/-- Membership in a step-1 `range'`. -/
theorem mem_range1 (s n m : ℕ) : m ∈ List.range' s n ↔ s ≤ m ∧ m < s + n := by
  induction n generalizing s with
  | zero => simp
  | succ n ih =>
    rw [show List.range' s (n + 1) = s :: List.range' (s + 1) n from rfl]
    simp only [List.mem_cons, ih]
    omega

/-- A step-1 `range'` has no duplicates. -/
theorem nodup_range1 (s n : ℕ) : (List.range' s n).Nodup := by
  induction n generalizing s with
  | zero => simp
  | succ n ih =>
    rw [show List.range' s (n + 1) = s :: List.range' (s + 1) n from rfl]
    refine List.nodup_cons.mpr ⟨?_, ih (s + 1)⟩
    rw [mem_range1]
    omega

/-- C3: one compute invocation, started on a seed record (a chain tail with
`next = -1`), appends at most `nrOfBounces` fresh records; afterwards the
walk from the seed index following `next` terminates (reaches a `-1` link)
within `nrOfBounces` steps, visiting the seed and then the consecutively
allocated fresh slots — in particular no slot twice (the chain is
acyclic). -/
theorem rayCasting_chain_bounded (intersect : Ray → Option HitInfo)
    (nrOfBounces : ℕ) (ray : Ray) (index : ℕ) (st : RTState)
    (hidx : index < st.counter) (hseed : (st.buf index).next = -1) :
    ∃ k ≤ nrOfBounces,
      (rayCasting intersect nrOfBounces ray index st).counter =
        st.counter + k ∧
      chainFrom (rayCasting intersect nrOfBounces ray index st)
          (nrOfBounces + 1) index = some (index :: List.range' st.counter k) ∧
      (index :: List.range' st.counter k).Nodup ∧
      (index :: List.range' st.counter k).length ≤ nrOfBounces + 1 := by
  obtain ⟨k, hk, hc, hch⟩ :=
    rayCasting_chain intersect nrOfBounces ray index st hidx hseed
  refine ⟨k, hk, hc, hch, ?_, ?_⟩
  · refine List.nodup_cons.mpr ⟨?_, nodup_range1 _ _⟩
    rw [mem_range1]
    omega
  · simp only [List.length_cons, List.length_range']
    omega

/-- Witness for C3 on a concrete one-seed state with an empty scene and two
requested bounces. -/
theorem rayCasting_chain_bounded_witness :
    0 < rtStW.counter ∧ (rtStW.buf 0).next = -1 ∧
    ∃ k ≤ 2,
      (rayCasting rtIntersectW 2 rtRayW 0 rtStW).counter =
        rtStW.counter + k ∧
      chainFrom (rayCasting rtIntersectW 2 rtRayW 0 rtStW) (2 + 1) 0 =
        some (0 :: List.range' rtStW.counter k) ∧
      (0 :: List.range' rtStW.counter k).Nodup ∧
      (0 :: List.range' rtStW.counter k).length ≤ 2 + 1 :=
  ⟨Nat.one_pos, rfl,
   rayCasting_chain_bounded rtIntersectW 2 rtRayW 0 rtStW Nat.one_pos rfl⟩

theorem V3.zero_def : (0 : V3) = ⟨0, 0, 0⟩ := rfl

theorem V3.add_def (a b : V3) :
    a + b = ⟨a.x + b.x, a.y + b.y, a.z + b.z⟩ := rfl

theorem V3.sub_def (a b : V3) :
    a - b = ⟨a.x - b.x, a.y - b.y, a.z - b.z⟩ := rfl

theorem V3.smul_def (q : ℚ) (a : V3) :
    q • a = ⟨q * a.x, q * a.y, q * a.z⟩ := rfl

/-- C4 (code bug): the lighting resolve discards every bounce's direct
lighting.  On a one-bounce chain with one light, unit bounce lighting and
unit surface lighting, the shader's output color is `(1,1,1)` — just the
terminal surface's direct lighting divided by the bounce count — and stays
`(1,1,1)` even when the bounce lighting term is raised to `(100,100,100)`,
while the claimed accumulate-then-add walk yields `(2,2,2)`.  The inner
`vec3 color` of the `while` body shadows the outer accumulator, so the
accumulated bounce terms are computed and then dropped. -/
theorem lighting_bounce_contribution_dropped :
    lightingMain ctxW 0 rayDataW 0 0 0 0 = ⟨1, 1, 1, 1⟩ ∧
    lightingMain ctxW2 0 rayDataW 0 0 0 0 = ⟨1, 1, 1, 1⟩ ∧
    claimedRaycastedLighting ctxW rayDataW 0 rayRec0
      (rayDataW.length + 1) = ⟨2, 2, 2⟩ := by
  refine ⟨?_, ?_, ?_⟩ <;>
  · simp only [lightingMain, computeRaycastedLighting, crlWhile, crlLightLoop,
      claimedRaycastedLighting, claimedWhile, ctxW, ctxW2, rayDataW, rayRec0,
      rayRec1, toHom, V3.add_def, V3.smul_def, V3.zero_def, V4.xyz,
      List.getD_cons_zero, List.getD_cons_succ, List.length_cons,
      List.length_nil, Int.toNat_zero, Int.toNat_one]
    norm_num

theorem facesBefore_zero (ms : List (Mat4 × MeshSrc)) :
    facesBefore ms 0 = 0 := rfl

theorem facesBefore_succ_cons (mm : Mat4 × MeshSrc)
    (rest : List (Mat4 × MeshSrc)) (i : ℕ) :
    facesBefore (mm :: rest) (i + 1) =
      mm.2.fData.length + facesBefore rest i := by
  simp [facesBefore]

theorem totalFaces_cons (mm : Mat4 × MeshSrc)
    (rest : List (Mat4 × MeshSrc)) :
    totalFaces (mm :: rest) = mm.2.fData.length + totalFaces rest := by
  simp [totalFaces]

theorem meshTriangles_length (matId : ℕ) (mm : Mat4 × MeshSrc) :
    (meshTriangles matId mm).length = mm.2.fData.length := by
  simp [meshTriangles]

/-- The flattened triangle buffer holds one triangle per face. -/
theorem migrateMeshes_tri_length (ms : List (Mat4 × MeshSrc)) :
    ∀ ff mid, (migrateMeshes ff mid ms).1.length = totalFaces ms := by
  induction ms with
  | nil => intro ff mid; rfl
  | cons mm rest ih =>
    intro ff mid
    simp [migrateMeshes, meshTriangles_length, totalFaces_cons, ih]

/-- One bounding sphere per mesh. -/
theorem migrateMeshes_bs_length (ms : List (Mat4 × MeshSrc)) :
    ∀ ff mid, (migrateMeshes ff mid ms).2.1.length = ms.length := by
  induction ms with
  | nil => intro ff mid; rfl
  | cons mm rest ih =>
    intro ff mid
    simp [migrateMeshes, ih]

/-- One filled material record per mesh. -/
theorem migrateMeshes_mat_length (ms : List (Mat4 × MeshSrc)) :
    ∀ ff mid, (migrateMeshes ff mid ms).2.2.length = ms.length := by
  induction ms with
  | nil => intro ff mid; rfl
  | cons mm rest ih =>
    intro ff mid
    simp [migrateMeshes, ih]

/-- The bounding sphere of mesh `i`: first-triangle offset is the running
face count of the preceding meshes, triangle count is the mesh's face
count. -/
theorem migrateMeshes_bs_getD (ms : List (Mat4 × MeshSrc)) :
    ∀ ff mid i, i < ms.length →
      (migrateMeshes ff mid ms).2.1.getD i default =
        bsphereOf (ff + facesBefore ms i) (ms.getD i default) := by
  induction ms with
  | nil => intro ff mid i hi; simp at hi
  | cons mm rest ih =>
    intro ff mid i hi
    cases i with
    | zero => simp [migrateMeshes, facesBefore_zero]
    | succ i =>
      have hi2 : i < rest.length := by simpa using hi
      simp only [migrateMeshes, List.getD_cons_succ, facesBefore_succ_cons]
      rw [ih (ff + mm.2.fData.length) (mid + 1) i hi2, Nat.add_assoc]

/-- The material record of mesh `i`. -/
theorem migrateMeshes_mat_getD (ms : List (Mat4 × MeshSrc)) :
    ∀ ff mid i, i < ms.length →
      (migrateMeshes ff mid ms).2.2.getD i default =
        materialStructOf (ms.getD i default).2.material := by
  induction ms with
  | nil => intro ff mid i hi; simp at hi
  | cons mm rest ih =>
    intro ff mid i hi
    cases i with
    | zero => simp [migrateMeshes]
    | succ i =>
      have hi2 : i < rest.length := by simpa using hi
      simp only [migrateMeshes, List.getD_cons_succ]
      exact ih (ff + mm.2.fData.length) (mid + 1) i hi2

/-- The triangle segment of mesh `i` is exactly the mesh's flattened
triangles, contiguous at offset `facesBefore ms i`, with `matId` equal to
the running mesh index. -/
theorem migrateMeshes_tri_segment (ms : List (Mat4 × MeshSrc)) :
    ∀ ff mid i, i < ms.length →
      ((migrateMeshes ff mid ms).1.drop (facesBefore ms i)).take
          (ms.getD i default).2.fData.length =
        meshTriangles (mid + i) (ms.getD i default) := by
  induction ms with
  | nil => intro ff mid i hi; simp at hi
  | cons mm rest ih =>
    intro ff mid i hi
    cases i with
    | zero =>
      simp only [migrateMeshes, facesBefore_zero, List.getD_cons_zero,
        List.drop_zero, Nat.add_zero]
      exact List.take_left' (meshTriangles_length mid mm)
    | succ i =>
      have hi2 : i < rest.length := by simpa using hi
      simp only [migrateMeshes, List.getD_cons_succ, facesBefore_succ_cons]
      rw [← List.drop_drop, List.drop_left' (meshTriangles_length mid mm),
        ih (ff + mm.2.fData.length) (mid + 1) i hi2]
      rw [show mid + 1 + i = mid + (i + 1) from by omega]

/-- The running face offset of mesh `i` plus its face count never exceeds
the total face count. -/
theorem facesBefore_add_le (ms : List (Mat4 × MeshSrc)) :
    ∀ i, i < ms.length →
      facesBefore ms i + (ms.getD i default).2.fData.length ≤
        totalFaces ms := by
  induction ms with
  | nil => intro i hi; simp at hi
  | cons mm rest ih =>
    intro i hi
    cases i with
    | zero =>
      simp only [facesBefore_zero, List.getD_cons_zero, totalFaces_cons]
      omega
    | succ i =>
      have hi2 : i < rest.length := by simpa using hi
      have := ih i hi2
      simp only [facesBefore_succ_cons, List.getD_cons_succ, totalFaces_cons]
      omega

/-- C6: after `migrate`, the bounding-sphere record of every mesh `i` (in
list order, lights excluded) points at a contiguous in-bounds triangle range
`firstTriangle..firstTriangle+nrOfTriangles`; `firstTriangle` is the sum of
the face counts of the preceding meshes, `nrOfTriangles` is the mesh's face
count, the range holds exactly the mesh's flattened triangles, each carrying
material id `i` — the slot of the mesh's material record. -/
theorem migrate_bsphere_ranges (l : SceneList) (i : ℕ)
    (hi : i < l.meshes.length) :
    ((migrate l).bspheres.getD i default).firstTriangle =
      facesBefore l.meshes i ∧
    ((migrate l).bspheres.getD i default).nrOfTriangles =
      (l.meshes.getD i default).2.fData.length ∧
    ((migrate l).bspheres.getD i default).firstTriangle +
        ((migrate l).bspheres.getD i default).nrOfTriangles ≤
      (migrate l).triangles.length ∧
    ((migrate l).triangles.drop
          ((migrate l).bspheres.getD i default).firstTriangle).take
        ((migrate l).bspheres.getD i default).nrOfTriangles =
      meshTriangles i (l.meshes.getD i default) ∧
    (∀ t ∈ ((migrate l).triangles.drop
          ((migrate l).bspheres.getD i default).firstTriangle).take
        ((migrate l).bspheres.getD i default).nrOfTriangles,
      t.matId = i) ∧
    (migrate l).materials.getD i default =
      materialStructOf (l.meshes.getD i default).2.material := by
  have hbs : (migrate l).bspheres.getD i default =
      bsphereOf (0 + facesBefore l.meshes i) (l.meshes.getD i default) :=
    migrateMeshes_bs_getD l.meshes 0 0 i hi
  have hseg := migrateMeshes_tri_segment l.meshes 0 0 i hi
  have hlen := migrateMeshes_tri_length l.meshes 0 0
  have hmat := migrateMeshes_mat_getD l.meshes 0 0 i hi
  have hmatlen := migrateMeshes_mat_length l.meshes 0 0
  have hfirst : ((migrate l).bspheres.getD i default).firstTriangle =
      facesBefore l.meshes i := by
    rw [hbs]
    simp [bsphereOf]
  have hnr : ((migrate l).bspheres.getD i default).nrOfTriangles =
      (l.meshes.getD i default).2.fData.length := by
    rw [hbs]
    simp [bsphereOf]
  have htris : (migrate l).triangles = (migrateMeshes 0 0 l.meshes).1 := rfl
  refine ⟨hfirst, hnr, ?_, ?_, ?_, ?_⟩
  · rw [hfirst, hnr, htris, hlen]
    exact facesBefore_add_le l.meshes i hi
  · rw [hfirst, hnr, htris]
    simpa using hseg
  · intro t ht
    rw [hfirst, hnr, htris] at ht
    rw [show (0 : ℕ) + i = i from by omega] at hseg
    rw [hseg] at ht
    simp only [meshTriangles, List.mem_map] at ht
    obtain ⟨f, _, rfl⟩ := ht
    rfl
  · rw [show (migrate l).materials =
      (migrateMeshes 0 0 l.meshes).2.2 ++
        List.replicate l.nrOfLights default from rfl]
    rw [List.getD_eq_getElem?_getD, List.getElem?_append,
      if_pos (by rw [hmatlen]; exact hi), ← List.getD_eq_getElem?_getD, hmat]

/-- Witness for C6 on the concrete scene. -/
theorem migrate_bsphere_ranges_witness :
    0 < sceneW.meshes.length ∧
    (((migrate sceneW).bspheres.getD 0 default).firstTriangle =
        facesBefore sceneW.meshes 0 ∧
      ((migrate sceneW).bspheres.getD 0 default).nrOfTriangles =
        (sceneW.meshes.getD 0 default).2.fData.length ∧
      ((migrate sceneW).bspheres.getD 0 default).firstTriangle +
          ((migrate sceneW).bspheres.getD 0 default).nrOfTriangles ≤
        (migrate sceneW).triangles.length ∧
      ((migrate sceneW).triangles.drop
            ((migrate sceneW).bspheres.getD 0 default).firstTriangle).take
          ((migrate sceneW).bspheres.getD 0 default).nrOfTriangles =
        meshTriangles 0 (sceneW.meshes.getD 0 default) ∧
      (∀ t ∈ ((migrate sceneW).triangles.drop
            ((migrate sceneW).bspheres.getD 0 default).firstTriangle).take
          ((migrate sceneW).bspheres.getD 0 default).nrOfTriangles,
        t.matId = 0) ∧
      (migrate sceneW).materials.getD 0 default =
        materialStructOf (sceneW.meshes.getD 0 default).2.material) :=
  ⟨by norm_num [sceneW], migrate_bsphere_ranges sceneW 0 (by norm_num [sceneW])⟩

/-- C7: `migrate` reads nothing of the previous reserved state and is a pure
function of the renderable list: two successive migrations of the same list
leave the state exactly as one does, any two prior states yield identical
results, and the three uploaded buffers equal the flattening of the list. -/
theorem migrate_deterministic_idempotent (l : SceneList)
    (s₁ s₂ : RTBuffers) :
    migrateUpdate l (migrateUpdate l s₁) = migrateUpdate l s₁ ∧
    migrateUpdate l s₁ = migrateUpdate l s₂ ∧
    (migrateUpdate l (migrateUpdate l s₁)).triangles =
      (migrate l).triangles ∧
    (migrateUpdate l (migrateUpdate l s₁)).bspheres = (migrate l).bspheres ∧
    (migrateUpdate l (migrateUpdate l s₁)).materials =
      (migrate l).materials :=
  ⟨rfl, rfl, rfl, rfl, rfl⟩

/-- C8: for each of the three passes (shadow mapping, geometry, ray
tracing), rendering with the empty renderable list logs an error and
returns `false` immediately: the pass state is unchanged and the only
effect is the error log — no cache update, no lazy initialization, no GPU
state change. -/
theorem empty_list_render_rejected (st₁ : SMState) (st₂ st₃ : PassState)
    (nrOfLights bounces : ℕ) (camEmpty : Bool) :
    smRender true nrOfLights st₁ = (false, st₁, [Eff.logError]) ∧
    geomRenderEntry true st₂ = (false, st₂, [Eff.logError]) ∧
    rtRenderEntry camEmpty true bounces st₃ =
      (false, st₃, [Eff.logError]) := by
  refine ⟨rfl, rfl, ?_⟩
  cases camEmpty <;> simp [rtRenderEntry]

/-- C9 (code bug): the shadow-map set is a fixed array of `MAX_LIGHTS = 4`
depth textures and the render loop pairs each light's stored projection
matrix with the inverse of its world matrix (`smLightMatrices`); but
neither `init` nor `render` clamps the light count to the capacity: with 5
lights, `init(5)` succeeds, leaves `shadowMapCount = 5 > 4`, and both the
creation loop and the per-light attach loop access depth-map index 4 —
outside the 4-element array. -/
theorem shadow_capacity_overflow :
    (smLightMatrices []).length = 0 ∧
    (smInit 5 ⟨true, true, 0⟩).1 = true ∧
    (smInit 5 ⟨true, true, 0⟩).2.shadowMapCount = 5 ∧
    ¬ ((smInit 5 ⟨true, true, 0⟩).2.shadowMapCount ≤ MAX_LIGHTS) ∧
    4 ∈ smInitAccesses 5 ∧ ¬ (4 < MAX_LIGHTS) ∧
    4 ∈ smRenderDepthAccesses 5 ∧
    (smRender false 5 ⟨true, true, 0⟩).2.1.shadowMapCount = 5 := by
  decide

end SSR
